import Mathlib

/-!
Shallow embedding of the liquidity sweep scanner pipeline from
oanda_proxy_production.js (the unnamed server file contains the same pipeline
plus the Telegram alert layer, which is embedded here as well).

Modelling conventions:
* prices and all other JS numbers are rational numbers;
* a candle keeps only the fields the pipeline reads: the UTC hour extracted
  from its timestamp and the parsed mid o/h/l/c prices;
* the network fetches are already-resolved inputs: an instrument input carries
  an Option of the three candle windows, none modelling a rejected fetch;
* the possibly-null ATR value is an Option; where the JS arithmetic coerces
  null to 0 the embedding uses getD 0, and where JS compares null with a
  number the comparison is modelled on the Option;
* Math.round is jsRound, the floor of x + 1/2, which matches the JS rounding
  of halves toward positive infinity.
-/

unseal Rat.add Rat.mul Rat.sub Rat.inv Rat.ofScientific

namespace OandaProxy

/-- Trade direction of a sweep signal (JS strings LONG and SHORT). -/
inductive Direction
  | LONG
  | SHORT
deriving DecidableEq, Fintype

/-- Displacement strength classes produced by detectSweep. -/
inductive DispStrength
  | NONE
  | WEAK
  | NORMAL
  | STRONG
deriving DecidableEq

/-- Which side of a level detectSweep probes (JS strings HIGH and LOW). -/
inductive SweepSide
  | HIGH
  | LOW
deriving DecidableEq

/-- Higher-timeframe bias classes returned by calculateHTFBias. -/
inductive HTFBias
  | BULLISH
  | BEARISH
  | NEUTRAL
deriving DecidableEq

/-- HTF confluence classes stored on a signal. -/
inductive HTFConfluence
  | ALIGNED
  | NEUTRAL
  | AGAINST
deriving DecidableEq

/-- Manual news bias toggle (JS strings BULLISH, BEARISH, NONE). -/
inductive NewsBias
  | BULLISH
  | BEARISH
  | NONE
deriving DecidableEq

/-- Letter grades produced by the scorer. -/
inductive Grade
  | APlus
  | A
  | B
  | C
  | D
deriving DecidableEq

/-- Direction filter config value (JS strings BOTH, LONG, SHORT). -/
inductive DirFilter
  | BOTH
  | only (d : Direction)
deriving DecidableEq

/-- Key-level type tags, the JS type strings of the keyLevels entries. -/
inductive LevelType
  | PDH
  | PDL
  | ASIAN_HIGH
  | ASIAN_LOW
  | LONDON_HIGH
  | LONDON_LOW
  | EQUAL_HIGH
  | EQUAL_LOW
deriving DecidableEq

/-- Mirrors the JS test type.includes with argument HIGH.  Note that the
string PDH does not contain the substring HIGH, so the previous-day high is
probed as a LOW-side level by the JS code; the embedding reproduces that. -/
def LevelType.includesHIGH : LevelType → Bool
  | .ASIAN_HIGH => true
  | .LONDON_HIGH => true
  | .EQUAL_HIGH => true
  | _ => false

/-- Mirrors the JS test type.includes with PDH or with PDL: true exactly for
the two previous-day level tags. -/
def LevelType.isPDLevel : LevelType → Bool
  | .PDH => true
  | .PDL => true
  | _ => false

/-- Source labels, the JS source strings attached to key levels and stored on
signals as setupType.  The equal-level labels carry their zero-based slice
index (the JS string shows index + 1). -/
inductive SourceLabel
  | prevDayHigh
  | prevDayLow
  | asianSessionHigh
  | asianSessionLow
  | londonSessionHigh
  | londonSessionLow
  | equalHighsN (idx : ℕ)
  | equalLowsN (idx : ℕ)
deriving DecidableEq

/-- Renders a SourceLabel as the JS source string. -/
def SourceLabel.render : SourceLabel → String
  | .prevDayHigh => "Previous Day High"
  | .prevDayLow => "Previous Day Low"
  | .asianSessionHigh => "Asian Session High"
  | .asianSessionLow => "Asian Session Low"
  | .londonSessionHigh => "London Session High"
  | .londonSessionLow => "London Session Low"
  | .equalHighsN idx => "Equal Highs " ++ toString (idx + 1)
  | .equalLowsN idx => "Equal Lows " ++ toString (idx + 1)

/-- A fetched candle, reduced to the fields the pipeline reads: the UTC hour
of its timestamp (new Date(c.time).getUTCHours()) and the parsed mid prices. -/
structure Candle where
  hour : ℕ
  o : ℚ
  h : ℚ
  l : ℚ
  c : ℚ
deriving DecidableEq

/-- Result record of getPDHPDL; the JS object also carries the raw date string
of the candle, which nothing downstream reads numerically. -/
structure PDHPDL where
  pdh : ℚ
  pdl : ℚ
deriving DecidableEq

/-- Result record of getSessionLevels. -/
structure SessionLevels where
  high : ℚ
  low : ℚ
deriving DecidableEq

/-- A UTC hour-of-day session window, half-open. -/
structure SessionSpec where
  sStart : ℕ
  sEnd : ℕ
deriving DecidableEq

/-- SESSIONS.ASIAN from LIQUIDITY_CONFIG. -/
def asianSession : SessionSpec := ⟨0, 8⟩

/-- SESSIONS.LONDON from LIQUIDITY_CONFIG. -/
def londonSession : SessionSpec := ⟨7, 16⟩

/-- SESSIONS.NY from LIQUIDITY_CONFIG. -/
def nySession : SessionSpec := ⟨13, 22⟩

/-- A swing point found by findEqualLevels: its price and candle index. -/
structure SwingPt where
  price : ℚ
  idx : ℕ
deriving DecidableEq

/-- An accepted equal-level cluster: the mean level and its two touches. -/
structure EqualCluster where
  level : ℚ
  touches : List SwingPt
deriving DecidableEq

/-- Fair value gap kind. -/
inductive FVGKind
  | bullish
  | bearish
deriving DecidableEq

/-- A fair value gap as returned by detectFVG. -/
structure FVG where
  kind : FVGKind
  top : ℚ
  bottom : ℚ
  size : ℚ
deriving DecidableEq

/-- A confirmed sweep as returned by detectSweep.  sweptExtreme models the JS
field sweepLow of a LONG result and sweepHigh of a SHORT result. -/
structure SweepEvent where
  direction : Direction
  sweptExtreme : ℚ
  entryPrice : ℚ
  hasDisplacement : Bool
  displacementStrength : DispStrength
  displacementATR : ℚ
  fvg : Option FVG
  confirmationCandle : Candle
deriving DecidableEq

/-- A key level entry as pushed into keyLevels by analyzeInstrument. -/
structure Level where
  type : LevelType
  price : ℚ
  source : SourceLabel
  priority : ℕ
deriving DecidableEq

/-- Per-criterion score points of the breakdown object.  The JS breakdown also
stores max values and human-readable reason strings, all derived from the same
snapshot fields as the points. -/
structure ScoreBreakdown where
  levelQuality : ℤ
  displacement : ℤ
  fvg : ℤ
  htfConfluence : ℤ
  rewardRisk : ℤ
  newsBias : ℤ
deriving DecidableEq

/-- Result of calculateSignalScore. -/
structure ScoreResult where
  score : ℤ
  maxScore : ℤ
  grade : Grade
  breakdown : ScoreBreakdown
  isPerfect : Bool
deriving DecidableEq

/-- A signal object as built by analyzeInstrument, with the score fields that
the JS code attaches right after construction.  The impure timestamp string
and the echoed timeframe strings are omitted. -/
structure Signal where
  instrument : String
  direction : Direction
  setupType : SourceLabel
  levelSwept : ℚ
  entryPrice : ℚ
  stopLoss : ℚ
  tp1 : ℚ
  tp2 : ℚ
  runner : ℚ
  rewardRisk : ℚ
  hasDisplacement : Bool
  displacementStrength : DispStrength
  displacementATR : ℚ
  hasFVG : Bool
  fvgDetails : Option FVG
  htfBias : HTFBias
  htfConfluence : HTFConfluence
  priority : ℕ
  score : ℤ
  grade : Grade
  breakdown : ScoreBreakdown
  isPerfect : Bool
deriving DecidableEq

/-- The resolved analysis configuration (the JS code resolves each config
field against LIQUIDITY_CONFIG defaults before use). -/
structure Config where
  minRR : ℚ
  maxSignals : ℕ
  equalTolerance : ℚ
  displacementMultiple : ℚ
  requireDisplacement : Bool
  requireFVG : Bool
  maxEqualLevels : ℕ
  directionFilter : DirFilter
  requireHTFConfluence : Bool
  minGrade : Grade
  newsBias : NewsBias
deriving DecidableEq

/-- The LIQUIDITY_CONFIG defaults as a resolved Config. -/
def cfgDefault : Config where
  minRR := 2
  maxSignals := 2
  equalTolerance := 0.0003
  displacementMultiple := 1.5
  requireDisplacement := false
  requireFVG := false
  maxEqualLevels := 3
  directionFilter := .BOTH
  requireHTFConfluence := true
  minGrade := .D
  newsBias := .NONE

/-- Math.round: floor of x + 1/2, matching JS rounding of halves upward. -/
def jsRound (x : ℚ) : ℤ := ⌊x + 1/2⌋

/-- The string JPY used by getPipSize. -/
def jpyTag : String := "JPY"

/-- The instrument name XAU_USD. -/
def xauTag : String := "XAU_USD"

/-- The instrument name NAS100_USD. -/
def nasTag : String := "NAS100_USD"

/-- getPipSize: JPY instruments 0.01, gold 0.1, NAS100 1, otherwise 0.0001.
The JS substring test instrument.includes is modelled through splitOn. -/
def getPipSize (instrument : String) : ℚ :=
  if (instrument.splitOn jpyTag).length > 1 then 0.01
  else if instrument = xauTag then 0.1
  else if instrument = nasTag then 1
  else 0.0001

/-- True range of a candle against the previous close. -/
def trueRange (prevClose : ℚ) (cd : Candle) : ℚ :=
  max (cd.h - cd.l) (max |cd.h - prevClose| |cd.l - prevClose|)

/-- Sum of true ranges over consecutive pairs, the previous candle first. -/
def trSum : Candle → List Candle → ℚ
  | _, [] => 0
  | prev, cd :: rest => trueRange prev.c cd + trSum cd rest

/-- calculateATR: null when fewer than period + 1 candles are available,
otherwise the mean true range over the trailing period. -/
def calculateATR (candles : List Candle) (period : ℕ) : Option ℚ :=
  if candles.length < period + 1 then none
  else
    match candles.drop (candles.length - (period + 1)) with
    | [] => none
    | first :: rest => some (trSum first rest / (period : ℚ))

/-- getPDHPDL: high and low of the second-to-last daily candle, null when
fewer than two daily candles are available. -/
def getPDHPDL (dailyCandles : List Candle) : Option PDHPDL :=
  match dailyCandles.reverse with
  | _ :: prevDay :: _ => some ⟨prevDay.h, prevDay.l⟩
  | _ => none

/-- getSessionLevels: max high and min low over the candles whose UTC hour
falls into the half-open session window, null when no candle does. -/
def getSessionLevels (candles : List Candle) (session : SessionSpec) : Option SessionLevels :=
  let sessionCandles := candles.filter fun cd =>
    decide (session.sStart ≤ cd.hour) && decide (cd.hour < session.sEnd)
  match sessionCandles with
  | [] => none
  | c0 :: rest =>
      some ⟨rest.foldl (fun acc cd => max acc cd.h) c0.h,
            rest.foldl (fun acc cd => min acc cd.l) c0.l⟩

/-- Collects swing highs and lows: points strictly above (below) both
neighbours on each side within a two-candle window, in index order.  The
second argument is the absolute index of the head of the remaining list. -/
def collectSwings : List Candle → ℕ → List SwingPt × List SwingPt
  | c0 :: c1 :: c2 :: c3 :: c4 :: rest, i =>
      let tail := collectSwings (c1 :: c2 :: c3 :: c4 :: rest) (i + 1)
      let hs :=
        if c2.h > c0.h ∧ c2.h > c1.h ∧ c2.h > c3.h ∧ c2.h > c4.h then
          ⟨c2.h, i + 2⟩ :: tail.1
        else tail.1
      let ls :=
        if c2.l < c0.l ∧ c2.l < c1.l ∧ c2.l < c3.l ∧ c2.l < c4.l then
          ⟨c2.l, i + 2⟩ :: tail.2
        else tail.2
      (hs, ls)
  | _, _ => ([], [])

/-- All unordered pairs of a list in the lexicographic order of the JS double
loop: outer index first, inner index second. -/
def pairsLex : List α → List (α × α)
  | [] => []
  | x :: xs => xs.map (fun y => (x, y)) ++ pairsLex xs

/-- One step of the equal-level clustering loop: skip everything once the
cluster cap is reached, otherwise accept a qualifying pair whose mean is not
within tolerance of an already-accepted cluster. -/
def clusterStep (tolerance : ℚ) (maxLevels : ℕ) (acc : List EqualCluster)
    (pr : SwingPt × SwingPt) : List EqualCluster :=
  if maxLevels ≤ acc.length then acc
  else
    let diff := |pr.1.price - pr.2.price|
    let avg := (pr.1.price + pr.2.price) / 2
    if diff / avg < tolerance then
      if acc.any fun eh => decide (|eh.level - avg| / avg < tolerance) then acc
      else acc ++ [⟨avg, [pr.1, pr.2]⟩]
    else acc

/-- findEqualLevels: cluster the pairwise-close swing points among the ten
most recent swings per side, capped at maxLevels clusters per side. -/
def findEqualLevels (candles : List Candle) (tolerance : ℚ) (maxLevels : ℕ) :
    List EqualCluster × List EqualCluster :=
  let swings := collectSwings candles 0
  let recentHighs := swings.1.drop (swings.1.length - 10)
  let recentLows := swings.2.drop (swings.2.length - 10)
  ((pairsLex recentHighs).foldl (clusterStep tolerance maxLevels) [],
   (pairsLex recentLows).foldl (clusterStep tolerance maxLevels) [])

/-- detectFVG: three-candle imbalance between the candles at index - 2 and at
index; null when the index is out of range. -/
def detectFVG (candles : List Candle) (index : ℕ) : Option FVG :=
  if index < 2 ∨ candles.length ≤ index then none
  else
    match candles.get? (index - 2), candles.get? index with
    | some c1, some c3 =>
        if c1.h < c3.l then some ⟨.bullish, c3.l, c1.h, c3.l - c1.h⟩
        else if c3.h < c1.l then some ⟨.bearish, c1.l, c3.h, c1.l - c3.h⟩
        else none
    | _, _ => none

/-- Displacement classification of one candidate confirmation candle: the
body-to-ATR ratio bucketed at 2, 1.5 and 1; NONE with ratio 0 when the ATR is
null or not positive (JS: null > 0 is false). -/
def classifyDisplacement (atr : Option ℚ) (bodySize : ℚ) : DispStrength × ℚ :=
  match atr with
  | some a =>
      if 0 < a then
        let r := bodySize / a
        (if 2 < r then .STRONG else if 1.5 < r then .NORMAL
         else if 1 < r then .WEAK else .NONE, r)
      else (.NONE, 0)
  | none => (.NONE, 0)

/-- Checks one consecutive candle pair for a sweep confirmation of the given
level and side, mirroring the body of the detectSweep loop. -/
def checkSweepPair (level : ℚ) (side : SweepSide) (atr : Option ℚ)
    (fvg : Option FVG) (prev curr : Candle) : Option SweepEvent :=
  let dis := classifyDisplacement atr |curr.c - curr.o|
  match side with
  | .LOW =>
      if (prev.l < level ∨ curr.l < level) ∧ level < curr.c ∧ curr.o < curr.c then
        some { direction := .LONG, sweptExtreme := min prev.l curr.l,
               entryPrice := curr.c,
               hasDisplacement := decide (dis.1 ≠ .NONE),
               displacementStrength := dis.1, displacementATR := dis.2,
               fvg := fvg, confirmationCandle := curr }
      else none
  | .HIGH =>
      if (level < prev.h ∨ level < curr.h) ∧ curr.c < level ∧ curr.c < curr.o then
        some { direction := .SHORT, sweptExtreme := max prev.h curr.h,
               entryPrice := curr.c,
               hasDisplacement := decide (dis.1 ≠ .NONE),
               displacementStrength := dis.1, displacementATR := dis.2,
               fvg := fvg, confirmationCandle := curr }
      else none

/-- Scans consecutive pairs oldest first and returns the first confirmation. -/
def sweepScan (level : ℚ) (side : SweepSide) (atr : Option ℚ)
    (fvg : Option FVG) : Candle → List Candle → Option SweepEvent
  | _, [] => none
  | prev, curr :: rest =>
      match checkSweepPair level side atr fvg prev curr with
      | some s => some s
      | none => sweepScan level side atr fvg curr rest

/-- detectSweep: examine only the last five candles, scanning consecutive
pairs for a breach-and-reject of the level; the FVG is probed once against
the most recent three candles of the full window (the JS code evaluates
detectFVG with the same two arguments at every return site).  The
displacement multiple parameter is accepted and ignored, as in the source. -/
def detectSweep (candles : List Candle) (level : ℚ) (side : SweepSide)
    (atr : Option ℚ) (displacementMultiple : ℚ) : Option SweepEvent :=
  let recent := candles.drop (candles.length - 5)
  let fvg := detectFVG candles (candles.length - 1)
  match recent with
  | [] => none
  | c0 :: rest => sweepScan level side atr fvg c0 rest

/-- calculateHTFBias: 20-period SMA test plus a three-candle structure test,
NEUTRAL when fewer than 20 candles are available. -/
def calculateHTFBias (htfCandles : List Candle) : HTFBias :=
  if htfCandles.length < 20 then .NEUTRAL
  else
    let recent := htfCandles.drop (htfCandles.length - 20)
    let sma20 := recent.foldl (fun acc cd => acc + cd.c) 0 / (recent.length : ℚ)
    match recent.reverse with
    | lastC :: prevC :: thirdC :: _ =>
        let currentPrice := lastC.c
        let higherHighs := thirdC.h < prevC.h ∧ prevC.h < lastC.h
        let higherLows := thirdC.l < prevC.l ∧ prevC.l < lastC.l
        let lowerHighs := lastC.h < prevC.h ∧ prevC.h < thirdC.h
        let lowerLows := lastC.l < prevC.l ∧ prevC.l < thirdC.l
        let bullishScore := (if sma20 < currentPrice then 2 else 0) +
          (if higherHighs then 1 else 0) + (if higherLows then 1 else 0)
        let bearishScore := (if currentPrice < sma20 then 2 else 0) +
          (if lowerHighs then 1 else 0) + (if lowerLows then 1 else 0)
        if 3 ≤ bullishScore then .BULLISH
        else if 3 ≤ bearishScore then .BEARISH
        else .NEUTRAL
    | _ => .NEUTRAL

/-- Level-quality points of the scorer, matched on the setupType label the
way the JS substring tests resolve on the actual source strings: the
previous-day labels contain the text Previous Day (25), the session labels
contain Session (18) and the equal-level labels contain Equal (12). -/
def levelQualityPoints : SourceLabel → ℤ
  | .prevDayHigh => 25
  | .prevDayLow => 25
  | .asianSessionHigh => 18
  | .asianSessionLow => 18
  | .londonSessionHigh => 18
  | .londonSessionLow => 18
  | .equalHighsN _ => 12
  | .equalLowsN _ => 12

/-- Grade thresholds of LIQUIDITY_CONFIG.SCORING.GRADES. -/
def gradeThreshold : Grade → ℤ
  | .APlus => 90
  | .A => 80
  | .B => 70
  | .C => 60
  | .D => 0

/-- calculateSignalScore: six additive criteria computed from the signal
snapshot and the manual news bias, mapped to a grade by fixed thresholds.
The JS function takes the news bias inside a config object and reads only
this field of it. -/
def calculateSignalScore (signal : Signal) (newsBias : NewsBias) : ScoreResult :=
  let levelPoints := levelQualityPoints signal.setupType
  let displacementPoints : ℤ :=
    match signal.displacementStrength with
    | .STRONG => 25
    | .NORMAL => 18
    | .WEAK => 8
    | .NONE => 0
  let fvgPoints : ℤ := if signal.hasFVG then 20 else 0
  let htfPoints : ℤ :=
    match signal.htfConfluence with
    | .ALIGNED => 15
    | .AGAINST => 0
    | .NEUTRAL => 8
  let rr := signal.rewardRisk
  let rrPoints : ℤ :=
    if 4 ≤ rr then 15
    else if 3 ≤ rr then 12
    else if 2.5 ≤ rr then 8
    else if 2 ≤ rr then 4
    else 0
  let newsPoints : ℤ :=
    match newsBias, signal.direction with
    | .NONE, _ => 0
    | .BULLISH, .LONG => 10
    | .BEARISH, .SHORT => 10
    | _, _ => -10
  let score := levelPoints + displacementPoints + fvgPoints + htfPoints +
    rrPoints + newsPoints
  let grade : Grade :=
    if 90 ≤ score then .APlus
    else if 80 ≤ score then .A
    else if 70 ≤ score then .B
    else if 60 ≤ score then .C
    else .D
  { score := score, maxScore := 110, grade := grade,
    breakdown := ⟨levelPoints, displacementPoints, fvgPoints, htfPoints,
      rrPoints, newsPoints⟩,
    isPerfect := decide (grade = .APlus) }

/-- Staged take-profit levels of calculateTPLevels. -/
structure TPLevels where
  tp1 : ℚ
  tp2 : ℚ
  runner : ℚ
deriving DecidableEq

/-- calculateTPLevels: 50, 75 and 100 percent fractions of the entry-target
range, on the profit side of the entry. -/
def calculateTPLevels (entryPrice targetPrice : ℚ) (direction : Direction) : TPLevels :=
  let range := |targetPrice - entryPrice|
  match direction with
  | .LONG => ⟨entryPrice + range * 0.5, entryPrice + range * 0.75, entryPrice + range * 1⟩
  | .SHORT => ⟨entryPrice - range * 0.5, entryPrice - range * 0.75, entryPrice - range * 1⟩

/-- Stop, full target and raw reward-to-risk ratio of a signal candidate. -/
structure TradeParams where
  stopLoss : ℚ
  fullTarget : ℚ
  rewardRisk : ℚ
deriving DecidableEq

/-- The stop, target and reward-to-risk block of analyzeInstrument.  A null
ATR is coerced to 0 by the JS multiplication, so the stop then sits exactly
at the swept extreme. -/
def computeStopTargetRR (sweep : SweepEvent) (atr : Option ℚ)
    (pdh_pdl : Option PDHPDL) (currentPrice : ℚ) : TradeParams :=
  let atrNum := atr.getD 0
  match sweep.direction with
  | .LONG =>
      let stopLoss := sweep.sweptExtreme - atrNum * 0.5
      let fullTarget :=
        match pdh_pdl with
        | some p => p.pdh
        | none => currentPrice + (currentPrice - stopLoss) * 3
      ⟨stopLoss, fullTarget, (fullTarget - sweep.entryPrice) / (sweep.entryPrice - stopLoss)⟩
  | .SHORT =>
      let stopLoss := sweep.sweptExtreme + atrNum * 0.5
      let fullTarget :=
        match pdh_pdl with
        | some p => p.pdl
        | none => currentPrice - (stopLoss - currentPrice) * 3
      ⟨stopLoss, fullTarget, (sweep.entryPrice - fullTarget) / (stopLoss - sweep.entryPrice)⟩

/-- HTF confluence classification of analyzeInstrument: ALIGNED when the
sweep direction agrees with a non-neutral bias, AGAINST when the bias is
non-neutral otherwise, NEUTRAL when the bias is NEUTRAL. -/
def confluenceOf (direction : Direction) (bias : HTFBias) : HTFConfluence :=
  match direction, bias with
  | .LONG, .BULLISH => .ALIGNED
  | .SHORT, .BEARISH => .ALIGNED
  | _, .NEUTRAL => .NEUTRAL
  | _, _ => .AGAINST

/-- Stable insertion of one element behind every element the comparator keeps
in front, modelling the stable JS Array sort for a comparator that induces
the boolean before-or-equal relation le. -/
def insertStable (le : α → α → Bool) (x : α) : List α → List α
  | [] => [x]
  | y :: ys => if le y x then y :: insertStable le x ys else x :: y :: ys

/-- Stable sort by left-to-right insertion, extensionally the JS stable
Array sort for a comparator inducing the total before-or-equal relation le. -/
def sortStable (le : α → α → Bool) (l : List α) : List α :=
  l.foldl (fun acc x => insertStable le x acc) []

/-- Before-or-equal relation of the keyLevels comparator (priority asc). -/
def prioLe (a b : Level) : Bool := decide (a.priority ≤ b.priority)

/-- Before-or-equal relation of the per-instrument signals comparator
(score desc, then priority asc). -/
def scorePrioLe (a b : Signal) : Bool :=
  decide (b.score < a.score) || (decide (a.score = b.score) && decide (a.priority ≤ b.priority))

/-- Before-or-equal relation of the aggregated scan comparator (score desc
only). -/
def scoreLe (a b : Signal) : Bool := decide (b.score ≤ a.score)

/-- keyLevels construction order of analyzeInstrument: previous-day levels,
Asian session levels, London session levels, then up to two equal-high and
two equal-low clusters. -/
def buildKeyLevels (pdh_pdl : Option PDHPDL) (asian london : Option SessionLevels)
    (eqHighs eqLows : List EqualCluster) : List Level :=
  (match pdh_pdl with
   | some p => [⟨.PDH, p.pdh, .prevDayHigh, 1⟩, ⟨.PDL, p.pdl, .prevDayLow, 1⟩]
   | none => []) ++
  (match asian with
   | some s => [⟨.ASIAN_HIGH, s.high, .asianSessionHigh, 2⟩,
                ⟨.ASIAN_LOW, s.low, .asianSessionLow, 2⟩]
   | none => []) ++
  (match london with
   | some s => [⟨.LONDON_HIGH, s.high, .londonSessionHigh, 2⟩,
                ⟨.LONDON_LOW, s.low, .londonSessionLow, 2⟩]
   | none => []) ++
  ((eqHighs.take 2).enum.map fun p => ⟨.EQUAL_HIGH, p.2.level, .equalHighsN p.1, 3⟩) ++
  ((eqLows.take 2).enum.map fun p => ⟨.EQUAL_LOW, p.2.level, .equalLowsN p.1, 3⟩)

/-- Per-instrument analysis context: the values analyzeInstrument computes
once before iterating the key levels. -/
structure AnalyzeCtx where
  instrument : String
  pipSize : ℚ
  atr : Option ℚ
  currentPrice : ℚ
  htfBias : HTFBias
  pdh_pdl : Option PDHPDL
  analysisCandles : List Candle
  cfg : Config

/-- State of the key-level loop: accepted signals and seen direction keys. -/
structure LoopState where
  signals : List Signal
  seen : List (Direction × Bool)
deriving DecidableEq

/-- The direction dedup key of the loop: the sweep direction paired with
whether the level is a previous-day level. -/
def dirKeyOf (sw : SweepEvent) (lv : Level) : Direction × Bool :=
  (sw.direction, lv.type.isPDLevel)

/-- Direction filter test of the loop (continue when the filter is not BOTH
and the sweep direction differs). -/
def dirSkip (f : DirFilter) (d : Direction) : Bool :=
  match f with
  | .BOTH => false
  | .only d0 => decide (d ≠ d0)

/-- HTF confluence veto of the loop (continue when confluence is required,
the bias is not neutral and the sweep runs against it). -/
def htfSkip (req : Bool) (bias : HTFBias) (d : Direction) : Bool :=
  req && (match bias, d with
          | .BEARISH, .LONG => true
          | .BULLISH, .SHORT => true
          | _, _ => false)

/-- Builds the signal object of analyzeInstrument for an accepted candidate,
including the pip rounding of stop and targets, the rounding of the stored
reward-to-risk to hundredths, and the attached score fields.  The JS code
attaches the score fields to the freshly built object; the scorer reads none
of them, so building with placeholders and overwriting is extensionally the
same. -/
def buildSignalObj (ctx : AnalyzeCtx) (lv : Level) (sw : SweepEvent)
    (tp : TradeParams) : Signal :=
  let tps := calculateTPLevels sw.entryPrice tp.fullTarget sw.direction
  let sig0 : Signal :=
    { instrument := ctx.instrument, direction := sw.direction,
      setupType := lv.source, levelSwept := lv.price,
      entryPrice := sw.entryPrice,
      stopLoss := (jsRound (tp.stopLoss / ctx.pipSize) : ℚ) * ctx.pipSize,
      tp1 := (jsRound (tps.tp1 / ctx.pipSize) : ℚ) * ctx.pipSize,
      tp2 := (jsRound (tps.tp2 / ctx.pipSize) : ℚ) * ctx.pipSize,
      runner := (jsRound (tps.runner / ctx.pipSize) : ℚ) * ctx.pipSize,
      rewardRisk := (jsRound (tp.rewardRisk * 100) : ℚ) / 100,
      hasDisplacement := sw.hasDisplacement,
      displacementStrength := sw.displacementStrength,
      displacementATR := sw.displacementATR,
      hasFVG := decide (sw.fvg ≠ none), fvgDetails := sw.fvg,
      htfBias := ctx.htfBias, htfConfluence := confluenceOf sw.direction ctx.htfBias,
      priority := lv.priority, score := 0, grade := .D,
      breakdown := ⟨0, 0, 0, 0, 0, 0⟩, isPerfect := false }
  let sr := calculateSignalScore sig0 ctx.cfg.newsBias
  { sig0 with
    score := sr.score
    grade := sr.grade
    breakdown := sr.breakdown
    isPerfect := sr.isPerfect }

/-- Body of the key-level loop of analyzeInstrument for one level. -/
def processLevel (ctx : AnalyzeCtx) (st : LoopState) (lv : Level) : LoopState :=
  match detectSweep ctx.analysisCandles lv.price
      (if lv.type.includesHIGH then .HIGH else .LOW) ctx.atr
      ctx.cfg.displacementMultiple with
  | none => st
  | some sw =>
      if dirSkip ctx.cfg.directionFilter sw.direction then st
      else if htfSkip ctx.cfg.requireHTFConfluence ctx.htfBias sw.direction then st
      else if dirKeyOf sw lv ∈ st.seen then st
      else
        let tp := computeStopTargetRR sw ctx.atr ctx.pdh_pdl ctx.currentPrice
        if ctx.cfg.minRR ≤ tp.rewardRisk then
          if ctx.cfg.requireDisplacement ∧ sw.hasDisplacement = false then st
          else if ctx.cfg.requireFVG ∧ sw.fvg = none then st
          else
            let sig := buildSignalObj ctx lv sw tp
            if gradeThreshold ctx.cfg.minGrade ≤ sig.score then
              ⟨st.signals ++ [sig], dirKeyOf sw lv :: st.seen⟩
            else st
        else st

/-- The key-level loop: breaks once the signal cap is reached, otherwise
processes the levels in order. -/
def signalLoop (ctx : AnalyzeCtx) : List Level → LoopState → LoopState
  | [], st => st
  | lv :: rest, st =>
      if ctx.cfg.maxSignals ≤ st.signals.length then st
      else signalLoop ctx rest (processLevel ctx st lv)

/-- The three candle windows an instrument analysis consumes, as resolved by
the upstream fetches. -/
structure FetchData where
  dailyCandles : List Candle
  analysisCandles : List Candle
  htfCandles : List Candle
deriving DecidableEq

/-- One instrument input of a scan: the instrument name and the fetched
windows; none models a rejected or failed fetch. -/
structure InstrInput where
  instrument : String
  fetch : Option FetchData
deriving DecidableEq

/-- The successful analysis result body of analyzeInstrument. -/
structure AnalysisResult where
  instrument : String
  currentPrice : ℚ
  atr : Option ℚ
  pipSize : ℚ
  htfBias : HTFBias
  keyLevelsCount : ℕ
  signals : List Signal
  pdh : Option ℚ
  pdl : Option ℚ
  equalHighsCount : ℕ
  equalLowsCount : ℕ
deriving DecidableEq

/-- An instrument result: either an error record carrying only the
instrument name, or the analysis body. -/
inductive InstrResult
  | failed (instrument : String)
  | ok (body : AnalysisResult)
deriving DecidableEq

/-- The signals list scanAllInstruments reads off a result: empty for an
error record (whose signals field is absent in JS). -/
def InstrResult.signalList : InstrResult → List Signal
  | .failed _ => []
  | .ok body => body.signals

/-- The key levels analyzeInstrument assembles from a fetched window set. -/
def keyLevelsOf (cfg : Config) (d : FetchData) : List Level :=
  buildKeyLevels (getPDHPDL d.dailyCandles)
    (getSessionLevels d.analysisCandles asianSession)
    (getSessionLevels d.analysisCandles londonSession)
    (findEqualLevels d.analysisCandles cfg.equalTolerance cfg.maxEqualLevels).1
    (findEqualLevels d.analysisCandles cfg.equalTolerance cfg.maxEqualLevels).2

/-- The analysis context analyzeInstrument computes before its level loop. -/
def ctxOf (cfg : Config) (instrument : String) (d : FetchData) (lastCandle : Candle) :
    AnalyzeCtx :=
  { instrument := instrument, pipSize := getPipSize instrument,
    atr := calculateATR d.analysisCandles 14, currentPrice := lastCandle.c,
    htfBias := calculateHTFBias d.htfCandles, pdh_pdl := getPDHPDL d.dailyCandles,
    analysisCandles := d.analysisCandles, cfg := cfg }

/-- The successful body of analyzeInstrument: run the level loop over the
priority-sorted key levels and sort the accepted signals by score descending
with priority ascending as tie-break. -/
def analyzeCore (cfg : Config) (instrument : String) (d : FetchData)
    (lastCandle : Candle) : AnalysisResult :=
  let finalSt := signalLoop (ctxOf cfg instrument d lastCandle)
    (sortStable prioLe (keyLevelsOf cfg d)) ⟨[], []⟩
  { instrument := instrument, currentPrice := lastCandle.c,
    atr := calculateATR d.analysisCandles 14, pipSize := getPipSize instrument,
    htfBias := calculateHTFBias d.htfCandles,
    keyLevelsCount := (keyLevelsOf cfg d).length,
    signals := sortStable scorePrioLe finalSt.signals,
    pdh := (getPDHPDL d.dailyCandles).map (·.pdh),
    pdl := (getPDHPDL d.dailyCandles).map (·.pdl),
    equalHighsCount :=
      (findEqualLevels d.analysisCandles cfg.equalTolerance cfg.maxEqualLevels).1.length,
    equalLowsCount :=
      (findEqualLevels d.analysisCandles cfg.equalTolerance cfg.maxEqualLevels).2.length }

/-- analyzeInstrument on already-fetched candle windows.  A rejected fetch is
the caught error path; an empty analysis window throws in JS when the current
price is read from the last candle and is likewise caught into an error
record. -/
def analyzeInstrument (cfg : Config) (inp : InstrInput) : InstrResult :=
  match inp.fetch with
  | none => .failed inp.instrument
  | some d =>
      match d.analysisCandles.getLast? with
      | none => .failed inp.instrument
      | some lastCandle => .ok (analyzeCore cfg inp.instrument d lastCandle)

/-- Grade tallies of a scan run. -/
structure GradeCounts where
  aPlus : ℕ
  a : ℕ
  b : ℕ
  c : ℕ
  d : ℕ
deriving DecidableEq

/-- The all-zero grade tally. -/
def zeroGradeCounts : GradeCounts := ⟨0, 0, 0, 0, 0⟩

/-- Tally the grades of a signal list (every grade key exists in the JS
counter object, so every signal is counted). -/
def countGrades (l : List Signal) : GradeCounts :=
  l.foldl
    (fun g s =>
      match s.grade with
      | .APlus => { g with aPlus := g.aPlus + 1 }
      | .A => { g with a := g.a + 1 }
      | .B => { g with b := g.b + 1 }
      | .C => { g with c := g.c + 1 }
      | .D => { g with d := g.d + 1 })
    zeroGradeCounts

/-- The run snapshot scanAllInstruments returns and caches. -/
structure ScanOutput where
  instrumentsScanned : ℕ
  signalsFound : ℕ
  gradeCounts : GradeCounts
  signals : List Signal
  instruments : List InstrResult
deriving DecidableEq

/-- scanAllInstruments on already-fetched inputs: analyze every instrument in
universe order (the batching preserves order and only paces the fetches),
concatenate the per-instrument signal lists, sort the aggregate stably by
score descending only, and tally grades. -/
def scanAllInstruments (cfg : Config) (inputs : List InstrInput) : ScanOutput :=
  let results := inputs.map (analyzeInstrument cfg)
  let allSignals := results.foldl (fun acc r => acc ++ r.signalList) []
  let sorted := sortStable scoreLe allSignals
  { instrumentsScanned := results.length, signalsFound := sorted.length,
    gradeCounts := countGrades sorted, signals := sorted,
    instruments := results }

/-- ALERTS.ENABLED of the alert configuration. -/
def alertsEnabled : Bool := true

/-- ALERTS.COOLDOWN_MINUTES converted to milliseconds as in shouldSendAlert. -/
def cooldownMs : ℤ := 60 * 60 * 1000

/-- The alert dedup map: signal key to the epoch milliseconds of the last
dispatched alert for it. -/
def AlertMap : Type := List (String × ℤ)

/-- The dedup key of a signal: instrument, direction and setup label joined
with dashes, as the JS template string builds it. -/
def alertKey (s : Signal) : String :=
  let dirStr := match s.direction with
    | .LONG => "LONG"
    | .SHORT => "SHORT"
  s.instrument ++ "-" ++ dirStr ++ "-" ++ s.setupType.render

/-- Marks a key as alerted now, overwriting any previous entry (Map.set). -/
def alertMark (m : AlertMap) (k : String) (t : ℤ) : AlertMap :=
  (k, t) :: List.filter (fun p => !(p.1 == k)) m

/-- Grade gate of shouldSendAlert: only A+, A and B signals are alertable. -/
def gradeAlertable (g : Grade) : Bool :=
  decide (g = .APlus) || decide (g = .A) || decide (g = .B)

/-- shouldSendAlert: alerts must be enabled, the grade must be B or better,
and the key must not have been alerted within the cooldown window.  A stored
timestamp of 0 is falsy in JS and skips the cooldown check; real Date.now
values are positive. -/
def shouldSendAlert (nowMillis : ℤ) (alertedSignals : AlertMap) (s : Signal) : Bool :=
  if !alertsEnabled then false
  else if !gradeAlertable s.grade then false
  else
    match List.lookup (alertKey s) alertedSignals with
    | none => true
    | some lastAlerted =>
        if lastAlerted = 0 then true
        else if nowMillis - lastAlerted < cooldownMs then false
        else true

/-- One dispatch step of the alert loop in sendSignalAlerts: check the dedup
gate, and on dispatch record the key with the current time. -/
def dispatchAlert (nowMillis : ℤ) (st : AlertMap) (s : Signal) : Bool × AlertMap :=
  if shouldSendAlert nowMillis st s then (true, alertMark st (alertKey s) nowMillis)
  else (false, st)

/-- The ambient mutable server state a component could in principle read: the
clock and the alert dedup map.  The scorer reads neither. -/
structure World where
  nowMillis : ℤ
  alertedSignals : AlertMap

/-- calculateSignalScore as invoked in a given world: the JS function closes
over no mutable state (its SCORING table is a constant), so the world is
ignored. -/
def calculateSignalScoreIn (_w : World) (signal : Signal) (newsBias : NewsBias) :
    ScoreResult :=
  calculateSignalScore signal newsBias

/-- Daily window of the worked end-to-end example: the second-to-last candle
carries the previous-day high 1.1050 and low 1.1000. -/
def dailyC1 : List Candle :=
  [⟨0, 1.1000, 1.1060, 1.0990, 1.1030⟩,
   ⟨0, 1.1030, 1.1050, 1.1000, 1.1040⟩,
   ⟨0, 1.1040, 1.1045, 1.1005, 1.1010⟩]

/-- Analysis window of the worked end-to-end example: the fourth candle
pierces 1.0995 below the previous-day low and the fifth closes bullishly at
1.1010 back above it. -/
def analysisC1 : List Candle :=
  [⟨23, 1.1005, 1.1008, 1.1001, 1.1006⟩,
   ⟨23, 1.1006, 1.1009, 1.1002, 1.1007⟩,
   ⟨23, 1.1007, 1.1008, 1.1003, 1.1005⟩,
   ⟨23, 1.1005, 1.1010, 1.0995, 1.0998⟩,
   ⟨23, 1.1000, 1.1012, 1.0998, 1.1010⟩]

example : getPDHPDL dailyC1 = some ⟨1.1050, 1.1000⟩ := by decide

example :
    detectSweep analysisC1 1.1000 .LOW (some 0.0010) 1.5 =
      some ⟨.LONG, 1.0995, 1.1010, false, .NONE, 1, none,
            ⟨23, 1.1000, 1.1012, 1.0998, 1.1010⟩⟩ := by decide

example :
    computeStopTargetRR ⟨.LONG, 1.0995, 1.1010, false, .NONE, 1, none,
        ⟨23, 1.1000, 1.1012, 1.0998, 1.1010⟩⟩ (some 0.0010)
      (some ⟨1.1050, 1.1000⟩) 1.1010 = ⟨1.0990, 1.1050, 2⟩ := by decide

/-- Daily window of the rounding counterexample: previous-day high 1.105005
and low 1.1000. -/
def dailyX : List Candle :=
  [⟨0, 1.1010, 1.105005, 1.1000, 1.1020⟩,
   ⟨0, 1.1020, 1.1040, 1.1010, 1.1030⟩]

/-- Analysis window of the rounding counterexample, six candles outside any
session window, ATR unavailable. -/
def analysisX : List Candle :=
  [⟨23, 1.1005, 1.1008, 1.1001, 1.1006⟩,
   ⟨23, 1.1006, 1.1009, 1.1002, 1.1007⟩,
   ⟨23, 1.1007, 1.1008, 1.1003, 1.1005⟩,
   ⟨23, 1.1005, 1.1010, 1.0990, 1.0995⟩,
   ⟨23, 1.1000, 1.1012, 1.0992, 1.1010⟩,
   ⟨23, 1.1012, 1.1013, 1.1008, 1.1010⟩]

/-- Scan config with a configured minimum reward-to-risk of 2.0005. -/
def cfgX : Config := { cfgDefault with minRR := 2.0005 }

/-- Instrument input of the rounding counterexample. -/
def inpX : InstrInput :=
  { instrument := "EUR_USD", fetch := some ⟨dailyX, analysisX, []⟩ }

example :
    ((analyzeInstrument cfgX inpX).signalList.map (·.rewardRisk)) = [2] := by decide

/-- Analysis window of the first tie instrument: an Asian-session low at
1.1000 swept by the fourth candle and confirmed by the fifth, with the last
close extending to 1.1020. -/
def analysisB7 : List Candle :=
  [⟨1, 1.1005, 1.1008, 1.1000, 1.1006⟩,
   ⟨2, 1.1006, 1.1009, 1.1001, 1.1007⟩,
   ⟨9, 1.1007, 1.1008, 1.1002, 1.1005⟩,
   ⟨9, 1.1005, 1.1010, 1.0990, 1.0995⟩,
   ⟨10, 1.1000, 1.1012, 1.0992, 1.1010⟩,
   ⟨11, 1.1012, 1.1022, 1.1008, 1.1020⟩]

/-- A bullish higher-timeframe window: twenty candles with rising closes,
highs and lows. -/
def htfBullish : List Candle :=
  (List.range 20).map fun i =>
    ⟨0, 1 + (i : ℚ) / 100, 1 + (i : ℚ) / 100 + 0.01,
     1 + (i : ℚ) / 100 - 0.01, 1 + (i : ℚ) / 100⟩

/-- First tie instrument input: no previous-day data, bullish HTF. -/
def inpB7 : InstrInput :=
  { instrument := "EUR_USD", fetch := some ⟨[], analysisB7, htfBullish⟩ }

/-- Daily window of the second tie instrument: previous-day high 1.1090 and
low 1.1000. -/
def dailyA7 : List Candle :=
  [⟨0, 1.1010, 1.1090, 1.1000, 1.1050⟩,
   ⟨0, 1.1050, 1.1060, 1.1020, 1.1040⟩]

/-- Second tie instrument input: previous-day levels only, neutral HTF. -/
def inpA7 : InstrInput :=
  { instrument := "GBP_USD", fetch := some ⟨dailyA7, analysisX, []⟩ }

example : calculateHTFBias htfBullish = .BULLISH := by decide

example :
    ((analyzeInstrument cfgDefault inpB7).signalList.map fun s =>
      (s.score, s.priority, s.rewardRisk)) = [(48, 2, 5)] := by decide

example :
    ((analyzeInstrument cfgDefault inpA7).signalList.map fun s =>
      (s.score, s.priority, s.rewardRisk)) = [(48, 1, 4)] := by decide

example :
    ((scanAllInstruments cfgDefault [inpB7, inpA7]).signals.map fun s =>
      (s.score, s.priority)) = [(48, 2), (48, 1)] := by decide

/-- Candle window for the equal-level clustering counterexample: four swing
highs at 100, 99.972, 100.028 and 100.056, all other highs flat. -/
def candlesC6 : List Candle :=
  [⟨0, 99.2, 99.5, 99, 99.2⟩,
   ⟨0, 99.2, 99.5, 99, 99.2⟩,
   ⟨0, 99.2, 100, 99, 99.2⟩,
   ⟨0, 99.2, 99.5, 99, 99.2⟩,
   ⟨0, 99.2, 99.5, 99, 99.2⟩,
   ⟨0, 99.2, 99.972, 99, 99.2⟩,
   ⟨0, 99.2, 99.5, 99, 99.2⟩,
   ⟨0, 99.2, 99.5, 99, 99.2⟩,
   ⟨0, 99.2, 100.028, 99, 99.2⟩,
   ⟨0, 99.2, 99.5, 99, 99.2⟩,
   ⟨0, 99.2, 99.5, 99, 99.2⟩,
   ⟨0, 99.2, 100.056, 99, 99.2⟩,
   ⟨0, 99.2, 99.5, 99, 99.2⟩,
   ⟨0, 99.2, 99.5, 99, 99.2⟩]

example :
    (findEqualLevels candlesC6 0.0003 3).1 =
      [⟨99.986, [⟨100, 2⟩, ⟨99.972, 5⟩]⟩,
       ⟨100.042, [⟨100.028, 8⟩, ⟨100.056, 11⟩]⟩] := by decide

example :
    (collectSwings candlesC6 0).1 =
      [⟨100, 2⟩, ⟨99.972, 5⟩, ⟨100.028, 8⟩, ⟨100.056, 11⟩] := by decide

/-! ### Helper lemmas about the stable sort -/

theorem insertStable_mem {α : Type _} (le : α → α → Bool) (x a : α) :
    ∀ l : List α, a ∈ insertStable le x l ↔ a = x ∨ a ∈ l := by
  intro l
  induction l with
  | nil => simp [insertStable]
  | cons y ys ih =>
      simp only [insertStable]
      split
      · simp only [List.mem_cons, ih]
        tauto
      · simp [List.mem_cons]

theorem insertStable_perm {α : Type _} (le : α → α → Bool) (x : α) :
    ∀ l : List α, (insertStable le x l).Perm (x :: l) := by
  intro l
  induction l with
  | nil => exact List.Perm.refl _
  | cons y ys ih =>
      simp only [insertStable]
      split
      · exact (ih.cons y).trans (List.Perm.swap x y ys)
      · exact List.Perm.refl _

theorem sortStable_foldl_perm {α : Type _} (le : α → α → Bool) :
    ∀ (l acc : List α),
      (l.foldl (fun acc x => insertStable le x acc) acc).Perm (acc ++ l) := by
  intro l
  induction l with
  | nil => intro acc; simp
  | cons x xs ih =>
      intro acc
      have h1 := ih (insertStable le x acc)
      have h2 : (insertStable le x acc ++ xs).Perm ((x :: acc) ++ xs) :=
        (insertStable_perm le x acc).append_right xs
      have h3 : ((x :: acc) ++ xs).Perm (acc ++ x :: xs) :=
        List.perm_middle.symm
      simpa using (h1.trans (h2.trans h3))

theorem sortStable_perm {α : Type _} (le : α → α → Bool) (l : List α) :
    (sortStable le l).Perm l := by
  exact sortStable_foldl_perm le l []

theorem sortStable_mem {α : Type _} (le : α → α → Bool) (l : List α) (a : α) :
    a ∈ sortStable le l ↔ a ∈ l :=
  (sortStable_perm le l).mem_iff

theorem insertStable_sorted_score (x : Signal) :
    ∀ l : List Signal,
      l.Pairwise (fun a b => b.score ≤ a.score) →
      (insertStable scoreLe x l).Pairwise (fun a b => b.score ≤ a.score) := by
  intro l
  induction l with
  | nil => intro _; simp [insertStable]
  | cons y ys ih =>
      intro hp
      rcases List.pairwise_cons.mp hp with ⟨hy, hys⟩
      simp only [insertStable]
      split
      · rename_i hle
        simp only [scoreLe, Bool.or_eq_true, decide_eq_true_eq] at hle
        refine List.pairwise_cons.mpr ⟨?_, ih hys⟩
        intro z hz
        rcases (insertStable_mem scoreLe x z ys).mp hz with rfl | hz
        · exact hle
        · exact hy z hz
      · rename_i hle
        simp only [scoreLe, Bool.or_eq_true, decide_eq_true_eq] at hle
        have hxy : y.score ≤ x.score := by omega
        refine List.pairwise_cons.mpr ⟨?_, hp⟩
        intro z hz
        rcases List.mem_cons.mp hz with rfl | hz
        · exact hxy
        · exact le_trans (hy z hz) hxy

theorem sortStable_sorted_score :
    ∀ (l acc : List Signal),
      acc.Pairwise (fun a b => b.score ≤ a.score) →
      (l.foldl (fun acc x => insertStable scoreLe x acc) acc).Pairwise
        (fun a b => b.score ≤ a.score) := by
  intro l
  induction l with
  | nil => intro acc h; exact h
  | cons x xs ih =>
      intro acc h
      exact ih _ (insertStable_sorted_score x acc h)

/-! ### Claims C5, C2, C7, C6 -/

/-- C5: calculateSignalScore is a pure, deterministic function of the signal
snapshot and the news-bias input: evaluated in any two ambient worlds on
identical arguments it returns the identical score, grade and breakdown. -/
theorem calculateSignalScore_deterministic (w1 w2 : World) (s : Signal) (nb : NewsBias) :
    (calculateSignalScoreIn w1 s nb).score = (calculateSignalScoreIn w2 s nb).score ∧
    (calculateSignalScoreIn w1 s nb).grade = (calculateSignalScoreIn w2 s nb).grade ∧
    (calculateSignalScoreIn w1 s nb).breakdown = (calculateSignalScoreIn w2 s nb).breakdown ∧
    calculateSignalScoreIn w1 s nb = calculateSignalScoreIn w2 s nb :=
  ⟨rfl, rfl, rfl, rfl⟩

theorem trueRange_nonneg (pc : ℚ) (cd : Candle) : 0 ≤ trueRange pc cd :=
  le_trans (abs_nonneg _) (le_trans (le_max_left _ _) (le_max_right _ _))

theorem trSum_nonneg : ∀ (prev : Candle) (l : List Candle), 0 ≤ trSum prev l := by
  intro prev l
  induction l generalizing prev with
  | nil => exact le_refl 0
  | cons cd rest ih =>
      have := trueRange_nonneg prev.c cd
      have := ih cd
      simp only [trSum]
      linarith

/-- C2: calculateATR returns the null sentinel on any window with fewer than
period + 1 candles, and whenever it returns a value the value is nonnegative. -/
theorem calculateATR_insufficient_and_nonneg (candles : List Candle) (period : ℕ) :
    (candles.length < period + 1 → calculateATR candles period = none) ∧
    (∀ v : ℚ, calculateATR candles period = some v → 0 ≤ v) := by
  constructor
  · intro h
    simp [calculateATR, h]
  · intro v hv
    by_cases h : candles.length < period + 1
    · simp [calculateATR, h] at hv
    · simp only [calculateATR, if_neg h] at hv
      rcases hd : candles.drop (candles.length - (period + 1)) with _ | ⟨first, rest⟩
      · rw [hd] at hv; exact absurd hv (by simp)
      · rw [hd] at hv
        have : v = trSum first rest / (period : ℚ) := by
          simpa using hv.symm
        rw [this]
        exact div_nonneg (trSum_nonneg first rest) (by positivity)

/-- A flat candle window of fifteen identical candles, giving an ATR of 0. -/
def atrFlat15 : List Candle := List.replicate 15 ⟨0, 1, 1, 1, 1⟩

/-- Witness for C2: the empty window returns the sentinel, and the value
returned on a concrete fifteen-candle window is nonnegative. -/
theorem calculateATR_insufficient_and_nonneg_witness :
    calculateATR [] 14 = none ∧ (0 : ℚ) ≤ 0 :=
  ⟨(calculateATR_insufficient_and_nonneg [] 14).1 (by decide),
   (calculateATR_insufficient_and_nonneg atrFlat15 14).2 0 (by decide)⟩

/-- C7 (amended): the aggregated signals list of a scan run is sorted by
score descending; equal scores keep their per-instrument concatenation order
because the aggregated comparator ranks by score only. -/
theorem scan_signals_sorted_by_score (cfg : Config) (inputs : List InstrInput) :
    (scanAllInstruments cfg inputs).signals.Pairwise (fun a b => b.score ≤ a.score) := by
  simp only [scanAllInstruments, sortStable]
  exact sortStable_sorted_score _ [] (by simp)

/-- The claimed tie-break order of C7: score descending with equal scores
ordered by ascending level priority. -/
def sortedByScoreThenPriority (l : List Signal) : Prop :=
  l.Pairwise (fun a b => b.score < a.score ∨ (a.score = b.score ∧ a.priority ≤ b.priority))

set_option maxRecDepth 4000 in
/-- Counterexample for C7 as stated: a two-instrument scan whose two signals
tie at score 48 but come out with priorities 2 then 1, so equal scores are
not broken by ascending priority. -/
theorem scan_sort_tie_priority_cx :
    ((scanAllInstruments cfgDefault [inpB7, inpA7]).signals.map fun s =>
        (s.score, s.priority)) = [(48, 2), (48, 1)] ∧
    ¬ sortedByScoreThenPriority (scanAllInstruments cfgDefault [inpB7, inpA7]).signals := by
  constructor
  · decide
  · unfold sortedByScoreThenPriority
    decide

/-! ### Claim C6 -/

/-- Separation of two accepted clusters: the relative distance of the earlier
mean from the later mean is not below tolerance, the exact negation of the
duplicate test applied when the later cluster was accepted. -/
def clusterSep (tol : ℚ) (c1 c2 : EqualCluster) : Prop :=
  ¬(|c1.level - c2.level| / c2.level < tol)

theorem clusterStep_pairwise (tol : ℚ) (maxL : ℕ) (acc : List EqualCluster)
    (pr : SwingPt × SwingPt) (h : acc.Pairwise (clusterSep tol)) :
    (clusterStep tol maxL acc pr).Pairwise (clusterSep tol) := by
  unfold clusterStep
  by_cases h1 : maxL ≤ acc.length
  · rw [if_pos h1]; exact h
  · rw [if_neg h1]
    dsimp only
    split_ifs with h2 h3
    · exact h
    · rw [List.pairwise_append]
      refine ⟨h, by simp, ?_⟩
      intro a ha b hb
      simp only [List.mem_singleton] at hb
      subst hb
      simp only [List.any_eq_true, decide_eq_true_eq] at h3
      intro hlt
      exact h3 ⟨a, ha, hlt⟩
    · exact h

theorem foldl_clusterStep_pairwise (tol : ℚ) (maxL : ℕ) :
    ∀ (pairs : List (SwingPt × SwingPt)) (acc : List EqualCluster),
      acc.Pairwise (clusterSep tol) →
      (pairs.foldl (clusterStep tol maxL) acc).Pairwise (clusterSep tol) := by
  intro pairs
  induction pairs with
  | nil => intro acc h; exact h
  | cons pr rest ih =>
      intro acc h
      exact ih _ (clusterStep_pairwise tol maxL acc pr h)

/-- C6 (amended): any two accepted equal-level clusters on the same side are
separated: the relative distance of the earlier mean from the later mean is
at least tolerance, so a close pair of swing points never founds two clusters
at effectively the same level.  (A qualifying pair may still be absorbed into
an earlier cluster or cut off by the cluster cap, so its two points need not
appear together in any single cluster.) -/
theorem equalLevels_clusters_separated (candles : List Candle) (tol : ℚ) (maxL : ℕ) :
    (findEqualLevels candles tol maxL).1.Pairwise (clusterSep tol) ∧
    (findEqualLevels candles tol maxL).2.Pairwise (clusterSep tol) := by
  unfold findEqualLevels
  exact ⟨foldl_clusterStep_pairwise tol maxL _ [] (by simp),
         foldl_clusterStep_pairwise tol maxL _ [] (by simp)⟩

set_option maxRecDepth 4000 in
/-- Counterexample for C6 as stated: the swing highs 100 and 100.028 form a
qualifying pair (relative difference below tolerance) among the most recent
swing highs, yet no accepted cluster contains both of them; instead they end
up in two distinct clusters, one in each. -/
theorem equal_pair_split_across_clusters_cx :
    (collectSwings candlesC6 0).1 =
        [⟨100, 2⟩, ⟨99.972, 5⟩, ⟨100.028, 8⟩, ⟨100.056, 11⟩] ∧
    |(100 : ℚ) - 100.028| / ((100 + 100.028) / 2) < 0.0003 ∧
    ((findEqualLevels candlesC6 0.0003 3).1.map fun cl =>
        cl.touches.map SwingPt.price) = [[100, 99.972], [100.028, 100.056]] ∧
    ((findEqualLevels candlesC6 0.0003 3).1.countP fun cl =>
        decide ((100 : ℚ) ∈ cl.touches.map SwingPt.price) &&
        decide ((100.028 : ℚ) ∈ cl.touches.map SwingPt.price)) = 0 := by
  refine ⟨by decide, by decide, by decide, by decide⟩

/-! ### Claim C1 -/

/-- C1: the worked end-to-end example.  With the previous-day candle at high
1.1050 and low 1.1000, the analysis window piercing 1.0995 below the
previous-day low and closing bullishly back at 1.1010, and an ATR of 0.0010,
the detector emits a LONG sweep entering at 1.1010, and the signal builder
computes stop 1.0995 - 0.0005 = 1.0990, full target 1.1050 and
reward-to-risk (1.1050 - 1.1010) / (1.1010 - 1.0990) = 2. -/
theorem pipeline_example_long_sweep :
    getPDHPDL dailyC1 = some ⟨1.1050, 1.1000⟩ ∧
    detectSweep analysisC1 1.1000 .LOW (some 0.0010) 1.5 =
      some ⟨.LONG, 1.0995, 1.1010, false, .NONE, 1, none,
            ⟨23, 1.1000, 1.1012, 1.0998, 1.1010⟩⟩ ∧
    computeStopTargetRR
        ⟨.LONG, 1.0995, 1.1010, false, .NONE, 1, none,
         ⟨23, 1.1000, 1.1012, 1.0998, 1.1010⟩⟩
        (some 0.0010) (some ⟨1.1050, 1.1000⟩) 1.1010 =
      ⟨1.0990, 1.1050, 2⟩ := by
  refine ⟨by decide, by decide, by decide⟩

/-! ### Claim C3 -/

theorem checkSweepPair_props {level : ℚ} {side : SweepSide} {atr : Option ℚ}
    {fvg : Option FVG} {prev curr : Candle} {s : SweepEvent}
    (h : checkSweepPair level side atr fvg prev curr = some s) :
    (side = .LOW → s.direction = .LONG ∧ s.sweptExtreme < level ∧ level < s.entryPrice) ∧
    (side = .HIGH → s.direction = .SHORT ∧ level < s.sweptExtreme ∧ s.entryPrice < level) := by
  cases side
  · simp only [checkSweepPair] at h
    split at h
    · rename_i hcond
      rcases hcond with ⟨hswept, hclose, _⟩
      rcases Option.some.inj h with rfl
      refine ⟨(by intro hx; cases hx), fun _ => ⟨rfl, ?_, hclose⟩⟩
      rcases hswept with hp | hc
      · exact lt_of_lt_of_le hp (le_max_left _ _)
      · exact lt_of_lt_of_le hc (le_max_right _ _)
    · cases h
  · simp only [checkSweepPair] at h
    split at h
    · rename_i hcond
      rcases hcond with ⟨hswept, hclose, _⟩
      rcases Option.some.inj h with rfl
      refine ⟨fun _ => ⟨rfl, ?_, hclose⟩, (by intro hx; cases hx)⟩
      rcases hswept with hp | hc
      · exact lt_of_le_of_lt (min_le_left _ _) hp
      · exact lt_of_le_of_lt (min_le_right _ _) hc
    · cases h

theorem checkSweepPair_noAtr {level : ℚ} {side : SweepSide} {fvg : Option FVG}
    {prev curr : Candle} {s : SweepEvent}
    (h : checkSweepPair level side none fvg prev curr = some s) :
    s.displacementStrength = .NONE ∧ s.displacementATR = 0 ∧ s.hasDisplacement = false := by
  cases side
  · simp only [checkSweepPair, classifyDisplacement] at h
    split at h
    · rcases Option.some.inj h with rfl
      exact ⟨rfl, rfl, rfl⟩
    · cases h
  · simp only [checkSweepPair, classifyDisplacement] at h
    split at h
    · rcases Option.some.inj h with rfl
      exact ⟨rfl, rfl, rfl⟩
    · cases h

theorem sweepScan_props {level : ℚ} {side : SweepSide} {atr : Option ℚ}
    {fvg : Option FVG} :
    ∀ (prev : Candle) (rest : List Candle) (s : SweepEvent),
      sweepScan level side atr fvg prev rest = some s →
      (side = .LOW → s.direction = .LONG ∧ s.sweptExtreme < level ∧ level < s.entryPrice) ∧
      (side = .HIGH → s.direction = .SHORT ∧ level < s.sweptExtreme ∧ s.entryPrice < level) := by
  intro prev rest
  induction rest generalizing prev with
  | nil => intro s h; cases h
  | cons curr rest ih =>
      intro s h
      simp only [sweepScan] at h
      rcases hc : checkSweepPair level side atr fvg prev curr with _ | s0
      · rw [hc] at h
        exact ih curr s h
      · rw [hc] at h
        rcases Option.some.inj h with rfl
        exact checkSweepPair_props hc

theorem sweepScan_noAtr {level : ℚ} {side : SweepSide} {fvg : Option FVG} :
    ∀ (prev : Candle) (rest : List Candle) (s : SweepEvent),
      sweepScan level side none fvg prev rest = some s →
      s.displacementStrength = .NONE ∧ s.displacementATR = 0 ∧ s.hasDisplacement = false := by
  intro prev rest
  induction rest generalizing prev with
  | nil => intro s h; cases h
  | cons curr rest ih =>
      intro s h
      simp only [sweepScan] at h
      rcases hc : checkSweepPair level side none fvg prev curr with _ | s0
      · rw [hc] at h
        exact ih curr s h
      · rw [hc] at h
        rcases Option.some.inj h with rfl
        exact checkSweepPair_noAtr hc

theorem detectSweep_props {candles : List Candle} {level : ℚ} {side : SweepSide}
    {atr : Option ℚ} {dm : ℚ} {s : SweepEvent}
    (h : detectSweep candles level side atr dm = some s) :
    (side = .LOW → s.direction = .LONG ∧ s.sweptExtreme < level ∧ level < s.entryPrice) ∧
    (side = .HIGH → s.direction = .SHORT ∧ level < s.sweptExtreme ∧ s.entryPrice < level) := by
  simp only [detectSweep] at h
  rcases hd : candles.drop (candles.length - 5) with _ | ⟨c0, rest⟩
  · rw [hd] at h; cases h
  · rw [hd] at h
    exact sweepScan_props c0 rest s h

theorem detectSweep_noAtr {candles : List Candle} {level : ℚ} {side : SweepSide}
    {dm : ℚ} {s : SweepEvent}
    (h : detectSweep candles level side none dm = some s) :
    s.displacementStrength = .NONE ∧ s.displacementATR = 0 ∧ s.hasDisplacement = false := by
  simp only [detectSweep] at h
  rcases hd : candles.drop (candles.length - 5) with _ | ⟨c0, rest⟩
  · rw [hd] at h; cases h
  · rw [hd] at h
    exact sweepScan_noAtr c0 rest s h

/-- C3: when the ATR is unavailable, every sweep the detector confirms has
displacement strength NONE with ratio 0 (the guard atr greater than 0 is
false for null, so no division by the missing ATR happens), and the signal
builder places the stop exactly at the swept extreme (the null ATR term is
coerced to 0, not divided by); the reward-to-risk denominator is then
strictly positive in both directions, so the pipeline performs no division by
zero or by an undefined value. -/
theorem undefined_atr_suppressed (candles : List Candle) (level : ℚ)
    (side : SweepSide) (dm : ℚ) (s : SweepEvent) (pd : Option PDHPDL) (cp : ℚ)
    (h : detectSweep candles level side none dm = some s) :
    s.displacementStrength = .NONE ∧ s.displacementATR = 0 ∧
    s.hasDisplacement = false ∧
    (computeStopTargetRR s none pd cp).stopLoss = s.sweptExtreme ∧
    (s.direction = .LONG →
      0 < s.entryPrice - (computeStopTargetRR s none pd cp).stopLoss) ∧
    (s.direction = .SHORT →
      0 < (computeStopTargetRR s none pd cp).stopLoss - s.entryPrice) := by
  obtain ⟨hds, hda, hhd⟩ := detectSweep_noAtr h
  have hprops := detectSweep_props h
  have hstop : (computeStopTargetRR s none pd cp).stopLoss = s.sweptExtreme := by
    rcases hdir : s.direction
    · simp [computeStopTargetRR, hdir]
    · simp [computeStopTargetRR, hdir]
  refine ⟨hds, hda, hhd, hstop, ?_, ?_⟩
  · intro hdir
    rw [hstop]
    cases side
    · rcases hprops.2 rfl with ⟨hd2, _, _⟩
      rw [hdir] at hd2; cases hd2
    · rcases hprops.1 rfl with ⟨_, hlt1, hlt2⟩
      have := lt_trans hlt1 hlt2
      linarith
  · intro hdir
    rw [hstop]
    cases side
    · rcases hprops.2 rfl with ⟨_, hlt1, hlt2⟩
      have := lt_trans hlt2 hlt1
      linarith
    · rcases hprops.1 rfl with ⟨hd2, _, _⟩
      rw [hdir] at hd2; cases hd2

/-- The sweep the detector confirms on the example window when the ATR is
unavailable: identical to the example sweep except that the displacement
ratio is 0. -/
def sweepNoAtr : SweepEvent :=
  ⟨.LONG, 1.0995, 1.1010, false, .NONE, 0, none,
   ⟨23, 1.1000, 1.1012, 1.0998, 1.1010⟩⟩

/-- Witness for C3 at the example window with a null ATR: displacement is
suppressed, the stop sits at the swept extreme 1.0995 and the reward-to-risk
denominator is positive. -/
theorem undefined_atr_suppressed_witness :
    sweepNoAtr.displacementStrength = .NONE ∧
    (computeStopTargetRR sweepNoAtr none (some ⟨1.1050, 1.1000⟩) 1.1010).stopLoss =
      sweepNoAtr.sweptExtreme ∧
    0 < sweepNoAtr.entryPrice -
      (computeStopTargetRR sweepNoAtr none (some ⟨1.1050, 1.1000⟩) 1.1010).stopLoss := by
  have h := undefined_atr_suppressed analysisC1 1.1000 .LOW 1.5 sweepNoAtr
    (some ⟨1.1050, 1.1000⟩) 1.1010 (by decide)
  exact ⟨h.1, h.2.2.2.1, h.2.2.2.2.1 rfl⟩

/-! ### Claims C4 and C10: invariants of the signal loop -/

/-- The direction dedup key recoverable from an accepted signal: its
direction paired with whether its stored priority marks a previous-day
level. -/
def sigKey (s : Signal) : Direction × Bool := (s.direction, decide (s.priority = 1))

/-- The property connecting a level type with its priority: the previous-day
tags are exactly the priority-1 levels.  Every level analyzeInstrument builds
satisfies it. -/
def LvOK (lv : Level) : Prop := lv.type.isPDLevel = decide (lv.priority = 1)

/-- The per-signal invariant of C4 (amended): the stop and the three staged
targets are integer multiples of the pip size, the stored reward-to-risk is
at least the configured minimum less half a hundredth (the rounding slack),
and whenever 100 times the configured minimum is an integer - as for the
default minimum 2.0 - the stored reward-to-risk is at least the minimum. -/
def SigOK (cfg : Config) (pip : ℚ) (s : Signal) : Prop :=
  (∃ k : ℤ, s.stopLoss = (k : ℚ) * pip) ∧
  (∃ k : ℤ, s.tp1 = (k : ℚ) * pip) ∧
  (∃ k : ℤ, s.tp2 = (k : ℚ) * pip) ∧
  (∃ k : ℤ, s.runner = (k : ℚ) * pip) ∧
  cfg.minRR - 1 / 200 ≤ s.rewardRisk ∧
  ((100 * cfg.minRR).den = 1 → cfg.minRR ≤ s.rewardRisk)

theorem rrStored_lb (minRR r : ℚ) (h : minRR ≤ r) :
    minRR - 1 / 200 ≤ (jsRound (r * 100) : ℚ) / 100 := by
  unfold jsRound
  have hf : r * 100 + 1 / 2 - 1 < (⌊r * 100 + 1 / 2⌋ : ℚ) := Int.sub_one_lt_floor _
  rw [le_div_iff (by norm_num : (0 : ℚ) < 100)]
  nlinarith

theorem rrStored_int (minRR r : ℚ) (h : minRR ≤ r) (hden : (100 * minRR).den = 1) :
    minRR ≤ (jsRound (r * 100) : ℚ) / 100 := by
  unfold jsRound
  have hq : ((100 * minRR).num : ℚ) = 100 * minRR := (Rat.den_eq_one_iff _).mp hden
  have h1 : (100 * minRR).num ≤ ⌊r * 100 + 1 / 2⌋ := by
    rw [Int.le_floor]
    rw [hq]
    linarith
  have h2 : ((100 * minRR).num : ℚ) ≤ (⌊r * 100 + 1 / 2⌋ : ℚ) := by
    exact_mod_cast h1
  rw [le_div_iff (by norm_num : (0 : ℚ) < 100)]
  linarith [hq ▸ h2]

theorem buildSignalObj_SigOK (ctx : AnalyzeCtx) (lv : Level) (sw : SweepEvent)
    (tp : TradeParams) (h : ctx.cfg.minRR ≤ tp.rewardRisk) :
    SigOK ctx.cfg ctx.pipSize (buildSignalObj ctx lv sw tp) := by
  refine ⟨⟨jsRound (tp.stopLoss / ctx.pipSize), rfl⟩,
    ⟨jsRound ((calculateTPLevels sw.entryPrice tp.fullTarget sw.direction).tp1 / ctx.pipSize), rfl⟩,
    ⟨jsRound ((calculateTPLevels sw.entryPrice tp.fullTarget sw.direction).tp2 / ctx.pipSize), rfl⟩,
    ⟨jsRound ((calculateTPLevels sw.entryPrice tp.fullTarget sw.direction).runner / ctx.pipSize), rfl⟩,
    ?_, ?_⟩
  · exact rrStored_lb _ _ h
  · intro hden
    exact rrStored_int _ _ h hden

theorem processLevel_SigOK (ctx : AnalyzeCtx) (st : LoopState) (lv : Level)
    (h : ∀ s ∈ st.signals, SigOK ctx.cfg ctx.pipSize s) :
    ∀ s ∈ (processLevel ctx st lv).signals, SigOK ctx.cfg ctx.pipSize s := by
  unfold processLevel
  rcases detectSweep ctx.analysisCandles lv.price
      (if lv.type.includesHIGH then .HIGH else .LOW) ctx.atr
      ctx.cfg.displacementMultiple with _ | sw
  · exact h
  · dsimp only
    split_ifs with h1 h2 h3 h4 h5 h6 h7 <;> try exact h
    intro s hs
    rcases List.mem_append.mp hs with hs | hs
    · exact h s hs
    · rcases List.mem_singleton.mp hs with rfl
      exact buildSignalObj_SigOK _ _ _ _ h4

theorem signalLoop_SigOK (ctx : AnalyzeCtx) :
    ∀ (levels : List Level) (st : LoopState),
      (∀ s ∈ st.signals, SigOK ctx.cfg ctx.pipSize s) →
      ∀ s ∈ (signalLoop ctx levels st).signals, SigOK ctx.cfg ctx.pipSize s := by
  intro levels
  induction levels with
  | nil => intro st h; exact h
  | cons lv rest ih =>
      intro st h
      unfold signalLoop
      split_ifs with h1
      · exact h
      · exact ih _ (processLevel_SigOK ctx st lv h)

/-- C4 (amended): every signal analyzeInstrument emits has its stop and its
three staged targets pip-rounded to integer multiples of the pip size, its
stored reward-to-risk within half a hundredth below the configured minimum,
and - whenever 100 times the configured minimum is an integer, as for the
default 2.0 - its stored reward-to-risk at least the configured minimum.
The raw reward-to-risk is filtered with a non-strict comparison, so a
candidate exactly at the minimum is kept and one strictly below discarded;
the stored field, however, is the raw ratio rounded to hundredths, which is
why a fractional configured minimum can exceed it. -/
theorem signal_fields_pip_rounded_rr_bounds (cfg : Config) (inp : InstrInput) :
    ∀ s ∈ (analyzeInstrument cfg inp).signalList,
      SigOK cfg (getPipSize inp.instrument) s := by
  intro s hs
  rcases hf : inp.fetch with _ | d
  · simp [analyzeInstrument, hf, InstrResult.signalList] at hs
  · rcases hl : d.analysisCandles.getLast? with _ | lastC
    · simp [analyzeInstrument, hf, hl, InstrResult.signalList] at hs
    · simp only [analyzeInstrument, hf, hl, InstrResult.signalList] at hs
      have hs2 : s ∈ (signalLoop (ctxOf cfg inp.instrument d lastC)
          (sortStable prioLe (keyLevelsOf cfg d)) ⟨[], []⟩).signals := by
        rw [← sortStable_mem scorePrioLe]
        exact hs
      exact signalLoop_SigOK (ctxOf cfg inp.instrument d lastC) _ _ (by simp) s hs2

/-- Counterexample for C4 as stated: with the configured minimum 2.0005 a
signal is produced whose stored rewardRisk field is 2, strictly below the
configured minimum, because the raw ratio 2.0025 passed the filter and was
then rounded to hundredths. -/
theorem signal_rr_below_min_cx :
    (analyzeInstrument cfgX inpX).signalList ≠ [] ∧
    ((analyzeInstrument cfgX inpX).signalList.all fun s =>
      decide (cfgX.minRR ≤ s.rewardRisk)) = false := by
  exact ⟨by decide, by decide⟩

/-- A placeholder signal used only to take the head of a computed list. -/
def defaultSignal : Signal :=
  { instrument := "EUR_USD", direction := .LONG, setupType := .prevDayLow,
    levelSwept := 0, entryPrice := 0, stopLoss := 0, tp1 := 0, tp2 := 0,
    runner := 0, rewardRisk := 0, hasDisplacement := false,
    displacementStrength := .NONE, displacementATR := 0, hasFVG := false,
    fvgDetails := none, htfBias := .NEUTRAL, htfConfluence := .NEUTRAL,
    priority := 1, score := 0, grade := .D, breakdown := ⟨0, 0, 0, 0, 0, 0⟩,
    isPerfect := false }

/-- Instrument input for the C4 witness: the example daily and analysis
windows on the default configuration. -/
def inpW4 : InstrInput :=
  { instrument := "EUR_USD", fetch := some ⟨dailyC1, analysisC1, []⟩ }

/-- The signal the C4 witness run emits. -/
def sW4 : Signal := (analyzeInstrument cfgDefault inpW4).signalList.headD defaultSignal

theorem headD_mem {α : Type _} (l : List α) (d : α) (h : l ≠ []) : l.headD d ∈ l := by
  cases l with
  | nil => exact absurd rfl h
  | cons x xs => simp [List.headD]

/-- Witness for C4 (amended) on a concrete emitted signal. -/
theorem signal_fields_pip_rounded_rr_bounds_witness :
    cfgDefault.minRR - 1 / 200 ≤ sW4.rewardRisk :=
  (signal_fields_pip_rounded_rr_bounds cfgDefault inpW4 sW4
    (headD_mem ((analyzeInstrument cfgDefault inpW4).signalList) defaultSignal
      (by decide))).2.2.2.2.1

theorem buildSignalObj_sigKey (ctx : AnalyzeCtx) (lv : Level) (sw : SweepEvent)
    (tp : TradeParams) (hlv : LvOK lv) :
    sigKey (buildSignalObj ctx lv sw tp) = dirKeyOf sw lv := by
  unfold sigKey dirKeyOf
  unfold LvOK at hlv
  rw [show (buildSignalObj ctx lv sw tp).direction = sw.direction from rfl,
      show (buildSignalObj ctx lv sw tp).priority = lv.priority from rfl, hlv]

/-- The loop invariant behind C10: every accepted signal has its key in the
seen set, and the accepted keys are pairwise distinct. -/
def LoopInv (st : LoopState) : Prop :=
  (∀ s ∈ st.signals, sigKey s ∈ st.seen) ∧ (st.signals.map sigKey).Nodup

theorem processLevel_inv (ctx : AnalyzeCtx) (st : LoopState) (lv : Level)
    (hlv : LvOK lv) (h : LoopInv st) : LoopInv (processLevel ctx st lv) := by
  unfold processLevel
  rcases detectSweep ctx.analysisCandles lv.price
      (if lv.type.includesHIGH then .HIGH else .LOW) ctx.atr
      ctx.cfg.displacementMultiple with _ | sw
  · exact h
  · dsimp only
    split_ifs with h1 h2 h3 h4 h5 h6 h7 <;> try exact h
    constructor
    · intro s hs
      rcases List.mem_append.mp hs with hs | hs
      · exact List.mem_cons_of_mem _ (h.1 s hs)
      · rcases List.mem_singleton.mp hs with rfl
        rw [buildSignalObj_sigKey ctx lv sw _ hlv]
        exact List.mem_cons_self _ _
    · rw [List.map_append, List.nodup_append]
      refine ⟨h.2, by simp, ?_⟩
      intro a ha hb
      simp only [List.map_cons, List.map_nil, List.mem_singleton] at hb
      rcases List.mem_map.mp ha with ⟨s, hsmem, hkeq⟩
      apply h3
      have hkey : sigKey s = dirKeyOf sw lv := by
        rw [hkeq, hb, buildSignalObj_sigKey ctx lv sw _ hlv]
      exact hkey ▸ h.1 s hsmem

theorem signalLoop_inv (ctx : AnalyzeCtx) :
    ∀ (levels : List Level) (st : LoopState),
      (∀ lv ∈ levels, LvOK lv) → LoopInv st → LoopInv (signalLoop ctx levels st) := by
  intro levels
  induction levels with
  | nil => intro st _ h; exact h
  | cons lv rest ih =>
      intro st hall h
      unfold signalLoop
      split_ifs with h1
      · exact h
      · exact ih _ (fun x hx => hall x (List.mem_cons_of_mem _ hx))
          (processLevel_inv ctx st lv (hall lv (List.mem_cons_self _ _)) h)

theorem buildKeyLevels_LvOK (pd : Option PDHPDL) (asian london : Option SessionLevels)
    (ehs els : List EqualCluster) :
    ∀ lv ∈ buildKeyLevels pd asian london ehs els, LvOK lv := by
  intro lv h
  simp only [buildKeyLevels, List.mem_append] at h
  rcases h with ((((h | h) | h) | h) | h)
  · rcases pd with _ | p
    · simp at h
    · simp only [List.mem_cons, List.not_mem_nil, or_false] at h
      rcases h with rfl | rfl
      · rfl
      · rfl
  · rcases asian with _ | a
    · simp at h
    · simp only [List.mem_cons, List.not_mem_nil, or_false] at h
      rcases h with rfl | rfl
      · rfl
      · rfl
  · rcases london with _ | l
    · simp at h
    · simp only [List.mem_cons, List.not_mem_nil, or_false] at h
      rcases h with rfl | rfl
      · rfl
      · rfl
  · rcases List.mem_map.mp h with ⟨p, _, rfl⟩
    rfl
  · rcases List.mem_map.mp h with ⟨p, _, rfl⟩
    rfl

theorem sorted_loop_nodup_le_four (ctx : AnalyzeCtx) (levels : List Level)
    (hall : ∀ lv ∈ levels, LvOK lv) :
    ((sortStable scorePrioLe (signalLoop ctx levels ⟨[], []⟩).signals).map sigKey).Nodup ∧
    (sortStable scorePrioLe (signalLoop ctx levels ⟨[], []⟩).signals).length ≤ 4 := by
  have hinv := signalLoop_inv ctx levels ⟨[], []⟩ hall ⟨by simp, by simp⟩
  have hperm := sortStable_perm scorePrioLe (signalLoop ctx levels ⟨[], []⟩).signals
  have hnodup := (hperm.map sigKey).nodup_iff.mpr hinv.2
  refine ⟨hnodup, ?_⟩
  have hcard : Fintype.card (Direction × Bool) = 4 := by decide
  have hle := hinv.2.length_le_card
  rw [hcard, List.length_map] at hle
  rw [hperm.length_eq]
  exact hle

/-- C10: the signals an instrument analysis emits carry pairwise-distinct
direction dedup keys (direction crossed with previous-day-or-other), so at
most one signal is accepted per key and the emitted count is bounded by four
regardless of the configured signal cap. -/
theorem signals_dirkey_nodup_le_four (cfg : Config) (inp : InstrInput) :
    ((analyzeInstrument cfg inp).signalList.map sigKey).Nodup ∧
    (analyzeInstrument cfg inp).signalList.length ≤ 4 := by
  rcases hf : inp.fetch with _ | d
  · simp [analyzeInstrument, hf, InstrResult.signalList]
  · rcases hl : d.analysisCandles.getLast? with _ | lastC
    · simp [analyzeInstrument, hf, hl, InstrResult.signalList]
    · simp only [analyzeInstrument, hf, hl, InstrResult.signalList]
      exact sorted_loop_nodup_le_four _ _
        (fun lv hlv => buildKeyLevels_LvOK _ _ _ _ _ lv ((sortStable_mem _ _ lv).mp hlv))

/-! ### Claim C8 -/

theorem foldl_signalList_nil :
    ∀ (results : List InstrResult) (acc : List Signal),
      (∀ r ∈ results, r.signalList = []) →
      results.foldl (fun acc r => acc ++ r.signalList) acc = acc := by
  intro results
  induction results with
  | nil => intro acc _; rfl
  | cons r rest ih =>
      intro acc hall
      have hr : r.signalList = [] := hall r (List.mem_cons_self _ _)
      simp only [List.foldl_cons, hr, List.append_nil]
      exact ih acc (fun x hx => hall x (List.mem_cons_of_mem _ hx))

/-- C8: the scan processes every instrument (one result per input); an input
whose fetch failed yields an error record for that instrument only; and a
scan in which every fetch failed still completes, with zero signals found and
all grade counts zero. -/
theorem scan_failures_isolated_and_empty (cfg : Config) (inputs : List InstrInput) :
    (scanAllInstruments cfg inputs).instrumentsScanned = inputs.length ∧
    (∀ inp ∈ inputs, inp.fetch = none →
      analyzeInstrument cfg inp = .failed inp.instrument) ∧
    ((∀ inp ∈ inputs, inp.fetch = none) →
      (scanAllInstruments cfg inputs).signals = [] ∧
      (scanAllInstruments cfg inputs).signalsFound = 0 ∧
      (scanAllInstruments cfg inputs).gradeCounts = zeroGradeCounts) := by
  refine ⟨by simp [scanAllInstruments], ?_, ?_⟩
  · intro inp _ hf
    simp [analyzeInstrument, hf]
  · intro hall
    have hres : ∀ r ∈ inputs.map (analyzeInstrument cfg), r.signalList = [] := by
      intro r hr
      rcases List.mem_map.mp hr with ⟨inp, hinp, rfl⟩
      simp [analyzeInstrument, hall inp hinp, InstrResult.signalList]
    have hfold := foldl_signalList_nil (inputs.map (analyzeInstrument cfg)) [] hres
    refine ⟨?_, ?_, ?_⟩ <;>
      simp [scanAllInstruments, hfold, sortStable, countGrades, zeroGradeCounts]

/-- A scan input list in which every fetch failed. -/
def inpFailPair : List InstrInput :=
  [{ instrument := "EUR_USD", fetch := none },
   { instrument := "GBP_USD", fetch := none }]

/-- Witness for C8: a concrete all-failure scan finds zero signals with all
grade counts zero. -/
theorem scan_failures_isolated_and_empty_witness :
    (scanAllInstruments cfgDefault inpFailPair).signalsFound = 0 ∧
    (scanAllInstruments cfgDefault inpFailPair).gradeCounts = zeroGradeCounts := by
  have h := (scan_failures_isolated_and_empty cfgDefault inpFailPair).2.2 (by decide)
  exact ⟨h.2.1, h.2.2⟩

/-! ### Claim C9 -/

/-- C9: once an alertable signal for a key has been dispatched at a positive
time, a second signal with the same key is not dispatched while the cooldown
has not elapsed, and is dispatched again once the cooldown has elapsed. -/
theorem alert_cooldown_dedup (st : AlertMap) (s1 s2 : Signal) (t1 t2 : ℤ)
    (hkey : alertKey s1 = alertKey s2) (ht1 : 0 < t1)
    (hsent : (dispatchAlert t1 st s1).1 = true) :
    (t2 - t1 < cooldownMs → (dispatchAlert t2 (dispatchAlert t1 st s1).2 s2).1 = false) ∧
    (cooldownMs ≤ t2 - t1 → gradeAlertable s2.grade = true →
      (dispatchAlert t2 (dispatchAlert t1 st s1).2 s2).1 = true) := by
  have hmap : (dispatchAlert t1 st s1).2 = alertMark st (alertKey s1) t1 := by
    unfold dispatchAlert at hsent ⊢
    split_ifs at hsent ⊢ with hss
    · rfl
  have hlook : List.lookup (alertKey s2) (alertMark st (alertKey s1) t1) = some t1 := by
    rw [← hkey]
    unfold alertMark
    simp [List.lookup]
  have ht1ne : ¬(t1 = 0) := by omega
  constructor
  · intro hcool
    have hss : shouldSendAlert t2 (alertMark st (alertKey s1) t1) s2 = false := by
      unfold shouldSendAlert
      rcases hga : gradeAlertable s2.grade
      · simp [alertsEnabled, hga]
      · simp only [alertsEnabled, Bool.not_true, Bool.false_eq_true, if_false, hga,
          Bool.not_false, hlook]
        simp [ht1ne, hcool]
    rw [hmap]
    unfold dispatchAlert
    rw [hss]
    simp
  · intro hcool hga
    have hss : shouldSendAlert t2 (alertMark st (alertKey s1) t1) s2 = true := by
      unfold shouldSendAlert
      simp only [alertsEnabled, Bool.not_true, Bool.false_eq_true, if_false, hga,
        Bool.not_false, hlook]
      have hnc : ¬(t2 - t1 < cooldownMs) := by omega
      simp [ht1ne, hnc]
    rw [hmap]
    unfold dispatchAlert
    rw [hss]
    simp

/-- A concrete grade-A signal for the alert witness. -/
def sigAlert : Signal :=
  { instrument := "EUR_USD", direction := .LONG, setupType := .prevDayLow,
    levelSwept := 1.1000, entryPrice := 1.1010, stopLoss := 1.0990,
    tp1 := 1.1030, tp2 := 1.1040, runner := 1.1050, rewardRisk := 2,
    hasDisplacement := false, displacementStrength := .NONE,
    displacementATR := 0, hasFVG := false, fvgDetails := none,
    htfBias := .NEUTRAL, htfConfluence := .NEUTRAL, priority := 1,
    score := 80, grade := .A, breakdown := ⟨25, 0, 0, 8, 4, 0⟩,
    isPerfect := false }

/-- Witness for C9: after dispatching at time 1000, the same key one minute
later is suppressed, and exactly one cooldown later it is dispatched again. -/
theorem alert_cooldown_dedup_witness :
    (dispatchAlert (1000 + 60000) (dispatchAlert 1000 [] sigAlert).2 sigAlert).1 = false ∧
    (dispatchAlert (1000 + cooldownMs) (dispatchAlert 1000 [] sigAlert).2 sigAlert).1 = true := by
  constructor
  · exact (alert_cooldown_dedup [] sigAlert sigAlert 1000 (1000 + 60000) rfl
      (by decide) (by decide)).1 (by decide)
  · exact (alert_cooldown_dedup [] sigAlert sigAlert 1000 (1000 + cooldownMs) rfl
      (by decide) (by decide)).2 (by decide) (by decide)

end OandaProxy

